import Mathlib

/-!
Verification development for the `futures-signals-structs` repository.

The repository is a Rust derive macro (`AsMutableStruct`) together with two
small runtime traits.  The macro classifies each named field of an annotated
struct into one of three kinds (scalar `Mutable` cell, nested mutable struct,
`MutableVec` list) and emits a companion "mutable" struct with
snapshot/update/clone code.

Part 1 embeds the syntax-level data the macro inspects (a fragment of `syn`)
and the classification / generation functions of
`futures-signals-structs-derive/src/lib.rs`.  Rust `panic!` / failed
`assert_eq!` / `Option::unwrap` on `None` are embedded as `Except.error`
carrying the diagnostic message.

Part 2 gives a heap-based small-step semantics to the generated code and to
the `Vec<T>` / `MutableVec<T>` trait impls of
`futures-signals-structs-traits`: a `Mutable` or `MutableVec` cell is a
location in a heap, reads and writes are explicit, so round-trip, frame and
aliasing properties are genuine theorems.
-/

namespace FSS

/-! ### Part 1: the syntax fragment inspected by the derive macro -/

/-- Model of `syn::Lit` restricted to what the macro distinguishes. -/
inductive Lit where
  | str (s : String)
  | otherLit
deriving DecidableEq

/-- Model of `syn::Meta` restricted to what the macro distinguishes. -/
inductive Meta where
  | nameValue (l : Lit)
  | metaPath
  | metaList
deriving DecidableEq

/-- Model of `syn::AttrStyle`. -/
inductive AttrStyle where
  | outer
  | inner
deriving DecidableEq

/-- Model of `syn::Attribute`: its style, its path (list of segment
identifiers) and the outcome of `attr.parse_meta()` (`Except.error` models
`Result::Err`). -/
structure Attribute where
  style : AttrStyle
  path : List String
  parseMeta : Except Unit Meta

/-- Model of `syn::Path::is_ident`: the path is a single segment equal to `s`. -/
def Attribute.isIdent (a : Attribute) (s : String) : Bool :=
  a.path == [s]

/-- Test for `AttrStyle::Outer` (the derive skips inner attributes on the
struct). -/
def Attribute.isOuter (a : Attribute) : Bool :=
  match a.style with
  | .outer => true
  | .inner => false

mutual
/-- Model of `syn::Type` restricted to what the macro distinguishes: a path
type (list of segments) or anything else. -/
inductive RsType where
  | path (segments : List PathSegment)
  | otherTy

/-- Model of `syn::PathSegment`. -/
inductive PathSegment where
  | mk (ident : String) (arguments : PathArguments)

/-- Model of `syn::PathArguments`. -/
inductive PathArguments where
  | noArgs
  | angleBracketed (args : List GenericArgument)
  | parenthesized

/-- Model of `syn::GenericArgument`: a type argument or anything else
(lifetime, const, binding...). -/
inductive GenericArgument where
  | typeArg (t : RsType)
  | otherArg
end

/-- The `ident` of a path segment. -/
def PathSegment.identOf : PathSegment → String
  | .mk i _ => i

/-- The `arguments` of a path segment. -/
def PathSegment.argumentsOf : PathSegment → PathArguments
  | .mk _ a => a

/-- Model of `syn::Field` (named or unnamed struct field). -/
structure Field where
  attrs : List Attribute
  ident : Option String
  vis : String
  ty : RsType

/-- Model of `syn::ItemStruct`. -/
structure ItemStruct where
  attrs : List Attribute
  vis : String
  ident : String
  fields : List Field

/-- Type `MutableStructField` from the derive crate: the classification of one
field. -/
inductive MutableStructField where
  | basic (name : String) (vis : String) (ty : RsType)
  | mutableStruct (name : String) (vis : String) (custom_mutable_ty : String)
  | vec (name : String) (vis : String) (inner_ty : RsType)

/-- Loop body of `MutableStructField::maybe_get_mutable_type`, recursing over
the field's attributes.  `panic!` is embedded as `Except.error` with the
panic message. -/
def maybe_get_mutable_type_loop : List Attribute → Except String (Option String)
  | [] => .ok none
  | attr :: rest =>
    if attr.isIdent "mutable_type" then
      match attr.parseMeta with
      | .ok (.nameValue (.str s)) => .ok (some s)
      | .ok (.nameValue _) => .error "Found a mutable_type that is not a string."
      | .ok _ => .error "Format mutable_type as #[mutable_type = \"MyMutableName\"]"
      | .error _ =>
        .error "Found a malformed mutable_type. Format mutable_type as #[mutable_type = \"Name\"]"
    else maybe_get_mutable_type_loop rest

/-- Wrapper for `MutableStructField::maybe_get_mutable_type`. -/
def maybe_get_mutable_type (f : Field) : Except String (Option String) :=
  maybe_get_mutable_type_loop f.attrs

/-- Function `MutableStructField::maybe_get_vec_type`: returns the generic type if the
field's type is a path ending in `Vec`.  The `segments.last().unwrap()`,
`assert_eq!(generic.args.len(), 1)` and the two `panic!`s are embedded as
`Except.error`. -/
def maybe_get_vec_type (f : Field) : Except String (Option RsType) :=
  match f.ty with
  | .path segments =>
    match segments.getLast? with
    | none => .error "called Option::unwrap() on a None value"
    | some path_end =>
      if path_end.identOf == "Vec" then
        match path_end.argumentsOf with
        | .angleBracketed args =>
          match args with
          | [.typeArg generic_type] => .ok (some generic_type)
          | [_] => .error "Found a generic that is not a type"
          | _ => .error "assertion failed: generic.args.len() == 1"
        | _ => .error "Found a Vec without a generic type"
      else .ok none
  | .otherTy => .ok none

/-- Lexical validity of an identifier string, modelled from the external
proc_macro2 crate's `Ident::new` validation (ASCII approximation of the
Unicode XID classes): not empty, not all digits, identifier start then
identifier continue. -/
def identOk (s : String) : Bool :=
  match s.toList with
  | [] => false
  | c :: rest =>
    !(c.isDigit && rest.all Char.isDigit)
      && ((c.isAlpha || c == '_') && rest.all (fun d => d.isAlphanum || d == '_'))

/-- Modelled from the external proc_macro2 crate: `format_ident!("{}", s)`
calls `Ident::new`, which panics (here: `Except.error` with the panic
message) unless `s` is lexically a valid identifier. -/
def format_ident (s : String) : Except String String :=
  match s.toList with
  | [] => .error "Ident is not allowed to be empty; use Option<Ident>"
  | c :: rest =>
    if c.isDigit && rest.all Char.isDigit then
      .error "Ident cannot be a number; use Literal instead"
    else if (c.isAlpha || c == '_') && rest.all (fun d => d.isAlphanum || d == '_') then
      .ok s
    else .error ("\"" ++ s ++ "\" is not a valid Ident")

theorem format_ident_of_identOk (s : String) (h : identOk s = true) :
    format_ident s = .ok s := by
  unfold identOk at h
  unfold format_ident
  match hl : s.toList with
  | [] => rw [hl] at h; simp at h
  | c :: rest =>
    rw [hl] at h
    replace h : (!(c.isDigit && rest.all Char.isDigit)
        && ((c.isAlpha || c == '_') && rest.all (fun d => d.isAlphanum || d == '_'))) = true := h
    cases hd : (c.isDigit && rest.all Char.isDigit) with
    | true => rw [hd] at h; simp at h
    | false =>
      rw [hd] at h
      simp only [Bool.not_false, Bool.true_and] at h
      simp [hd, h]

theorem format_ident_error_of_not (s : String) (h : identOk s = false) :
    ∃ e, format_ident s = .error e := by
  unfold identOk at h
  unfold format_ident
  match hl : s.toList with
  | [] =>
    exact ⟨"Ident is not allowed to be empty; use Option<Ident>", rfl⟩
  | c :: rest =>
    rw [hl] at h
    replace h : (!(c.isDigit && rest.all Char.isDigit)
        && ((c.isAlpha || c == '_') && rest.all (fun d => d.isAlphanum || d == '_'))) = false := h
    cases hd : (c.isDigit && rest.all Char.isDigit) with
    | true => exact ⟨"Ident cannot be a number; use Literal instead", by simp [hd]⟩
    | false =>
      rw [hd] at h
      simp only [Bool.not_false, Bool.true_and] at h
      exact ⟨"\"" ++ s ++ "\" is not a valid Ident", by simp [hd, h]⟩

/-- The impl `From<&Field> for MutableStructField`: the three-way classifier.
`field.ident.clone().unwrap()` on an unnamed field is the standard unwrap
panic (the struct literal evaluates `name` before `custom_mutable_ty`), and
`format_ident!("{}", mutable_type_str)` panics on a value that is not a
valid identifier. -/
def fromField (field : Field) : Except String MutableStructField :=
  match maybe_get_mutable_type field with
  | .error e => .error e
  | .ok (some mutable_type_str) =>
    match field.ident with
    | none => .error "called Option::unwrap() on a None value"
    | some name =>
      match format_ident mutable_type_str with
      | .error e => .error e
      | .ok custom_mutable_ty => .ok (.mutableStruct name field.vis custom_mutable_ty)
  | .ok none =>
    match maybe_get_vec_type field with
    | .error e => .error e
    | .ok (some vec_type) =>
      match field.ident with
      | none => .error "called Option::unwrap() on a None value"
      | some name => .ok (.vec name field.vis vec_type)
    | .ok none =>
      match field.ident with
      | none => .error "called Option::unwrap() on a None value"
      | some name => .ok (.basic name field.vis field.ty)

/-- One interpolation token of a `quote!` template: a literal code fragment, a
spliced identifier, or a spliced type. -/
inductive Token where
  | lit (s : String)
  | name (s : String)
  | ty (t : RsType)

/-- Comma separation as in `#(#items),*`. -/
def joinComma : List (List Token) → List Token
  | [] => []
  | [x] => x
  | x :: xs => x ++ [.lit ","] ++ joinComma xs

/-- Semicolon separation as in `#(#items);*`. -/
def joinSemi : List (List Token) → List Token
  | [] => []
  | [x] => x
  | x :: xs => x ++ [.lit ";"] ++ joinSemi xs

/-- Emitter `MutableStructField::get_mutable_field_definition`. -/
def get_mutable_field_definition : MutableStructField → List Token
  | .basic name vis ty =>
    [.name vis, .name name, .lit ": futures_signals::signal::Mutable<", .ty ty, .lit ">"]
  | .mutableStruct name vis custom_mutable_ty =>
    [.name vis, .name name, .lit ":", .name custom_mutable_ty]
  | .vec name vis inner_ty =>
    [.name vis, .name name, .lit ": futures_signals::signal_vec::MutableVec<", .ty inner_ty,
     .lit ">"]

/-- Emitter `MutableStructField::get_constructor`. -/
def get_constructor (f : MutableStructField) (snapshot_name : String) : List Token :=
  match f with
  | .basic name _ _ =>
    [.lit "futures_signals::signal::Mutable::new(", .name snapshot_name, .lit ".", .name name,
     .lit ")"]
  | .mutableStruct name _ _ =>
    [.name snapshot_name, .lit ".", .name name, .lit ".as_mutable_struct()"]
  | .vec name _ _ =>
    [.lit "futures_signals::signal_vec::MutableVec::new_with_values(", .name snapshot_name,
     .lit ".", .name name, .lit ".clone())"]

/-- Emitter `MutableStructField::get_snapshot_generator`. -/
def get_snapshot_generator : MutableStructField → List Token
  | .basic name _ _ => [.lit "self.", .name name, .lit ".get_cloned()"]
  | .mutableStruct name _ _ => [.lit "self.", .name name, .lit ".snapshot()"]
  | .vec name _ _ => [.lit "self.", .name name, .lit ".lock_ref().as_slice().to_vec()"]

/-- Emitter `MutableStructField::get_update_setter`. -/
def get_update_setter (f : MutableStructField) (snapshot_name : String) : List Token :=
  match f with
  | .basic name _ _ =>
    [.lit "self.", .name name, .lit ".set(", .name snapshot_name, .lit ".", .name name, .lit ")"]
  | .mutableStruct name _ _ =>
    [.lit "self.", .name name, .lit ".update(", .name snapshot_name, .lit ".", .name name,
     .lit ")"]
  | .vec name _ _ =>
    [.lit "self.", .name name, .lit ".lock_mut().replace_cloned(", .name snapshot_name, .lit ".",
     .name name, .lit ")"]

/-- Accessor `MutableStructField::get_name`. -/
def MutableStructField.get_name : MutableStructField → String
  | .basic name _ _ => name
  | .mutableStruct name _ _ => name
  | .vec name _ _ => name

/-- Loop body of `maybe_get_mutable_name`, recursing over the struct's
attributes.  Inner-style attributes are skipped. -/
def maybe_get_mutable_name_loop : List Attribute → Except String (Option String)
  | [] => .ok none
  | attr :: rest =>
    if attr.isOuter = false then maybe_get_mutable_name_loop rest
    else if attr.isIdent "MutableStructName" then
      match attr.parseMeta with
      | .ok (.nameValue (.str s)) => .ok (some s)
      | .ok (.nameValue _) => .error "Found a MutableStructName that is not a string."
      | .ok _ => .error "Format MutableStructName as #[MutableStructName = \"MyMutableName\"]"
      | .error _ =>
        .error "Found a malformed MutableStructName. Format MutableStructName as #[MutableStructName = \"Name\"]"
    else maybe_get_mutable_name_loop rest

/-- Function `maybe_get_mutable_name`. -/
def maybe_get_mutable_name (input : ItemStruct) : Except String (Option String) :=
  maybe_get_mutable_name_loop input.attrs

/-- The mutable-struct name computed at the top of `as_mutable_struct`:
`format_ident!` of the `MutableStructName` attribute value when present
(which panics on a value that is not a valid identifier), else `Mutable`
prepended to the struct's name (`.map(...).or(Some(...)).unwrap()`).  The
fallback `format_ident!("Mutable{}", &ast.ident)` never panics — `ast.ident`
models a parsed `syn::Ident`, which is lexically valid, and prepending
`Mutable` preserves validity — so `.or`'s eager evaluation of it is
observationally irrelevant and it is modelled as plain concatenation. -/
def mutable_name_of (ast : ItemStruct) : Except String String :=
  match maybe_get_mutable_name ast with
  | .error e => .error e
  | .ok (some name) =>
    match format_ident name with
    | .error e => .error e
    | .ok ident => .ok ident
  | .ok none => .ok ("Mutable" ++ ast.ident)

/-- The collection `ast.fields.iter().map(MutableStructField::from).collect()`: classify the
fields in order, aborting at the first failure. -/
def fieldsFrom : List Field → Except String (List MutableStructField)
  | [] => .ok []
  | f :: fs =>
    match fromField f with
    | .error e => .error e
    | .ok k =>
      match fieldsFrom fs with
      | .error e => .error e
      | .ok ks => .ok (k :: ks)

/-- Function `make_mutable_variant`: the struct definition, the `MutableStruct` impl
and the `Clone` impl of the generated mutable variant. -/
def make_mutable_variant (input : ItemStruct) (fields : List MutableStructField)
    (mutable_name : String) : List Token :=
  [.name input.vis, .lit "struct", .name mutable_name, .lit "\x7b"]
    ++ joinComma (fields.map get_mutable_field_definition)
    ++ [.lit "\x7d",
        .lit "impl futures_signals_structs_traits::MutableStruct for", .name mutable_name,
        .lit "\x7b type SnapshotType =", .name input.ident,
        .lit "; fn snapshot(&self) ->", .name input.ident, .lit "\x7b", .name input.ident,
        .lit "\x7b"]
    ++ joinComma (fields.map (fun f => [.name f.get_name, .lit ":"] ++ get_snapshot_generator f))
    ++ [.lit "\x7d \x7d fn update(&self, new_snapshot:", .name input.ident, .lit ") \x7b"]
    ++ joinSemi (fields.map (fun f => get_update_setter f "new_snapshot"))
    ++ [.lit "; \x7d \x7d",
        .lit "impl Clone for", .name mutable_name,
        .lit "\x7b fn clone(&self) ->", .name mutable_name,
        .lit "\x7b self.snapshot().as_mutable_struct() \x7d \x7d"]

/-- Function `impl_as_signal_struct`: the `AsMutableStruct` impl for the original
struct. -/
def impl_as_signal_struct (input : ItemStruct) (fields : List MutableStructField)
    (mutable_name : String) : List Token :=
  [.lit "impl futures_signals_structs_traits::AsMutableStruct for", .name input.ident,
   .lit "\x7b type MutableStructType =", .name mutable_name,
   .lit "; fn as_mutable_struct(&self) ->", .name mutable_name,
   .lit "\x7b", .name mutable_name, .lit "\x7b"]
    ++ joinComma (fields.map (fun f => [.name f.get_name, .lit ":"] ++ get_constructor f "self"))
    ++ [.lit "\x7d \x7d \x7d"]

/-- The whole derive entry point `as_mutable_struct`, from a parsed
`ItemStruct`: compute the mutable name, classify every field, emit the
mutable variant followed by the `AsMutableStruct` impl. -/
def as_mutable_struct_derive (ast : ItemStruct) : Except String (List Token) :=
  match mutable_name_of ast with
  | .error e => .error e
  | .ok mutable_name =>
    match fieldsFrom ast.fields with
    | .error e => .error e
    | .ok fields =>
      .ok (make_mutable_variant ast fields mutable_name
            ++ impl_as_signal_struct ast fields mutable_name)

/-! ### Spec-side definitions

These follow the words of the specification's claims (first matching
annotation, "path whose last segment is Vec with exactly one generic type
argument", ...) and are compared with the source-derived functions above. -/

/-- Spec side: the first `mutable_type` attribute on a field, if any. -/
def findMT (f : Field) : Option Attribute :=
  f.attrs.find? (fun a => a.isIdent "mutable_type")

/-- Spec side: the string value of a name-value string attribute, `none` when
the attribute is malformed in any way. -/
def attrStrValue (a : Attribute) : Option String :=
  match a.parseMeta with
  | .ok (.nameValue (.str s)) => some s
  | _ => none

/-- Spec side: the declared type is a path whose last segment is named
`Vec`. -/
def lastSegIsVec : RsType → Bool
  | .path segments =>
    match segments.getLast? with
    | some pe => pe.identOf == "Vec"
    | none => false
  | .otherTy => false

/-- Spec side: the declared type is a path whose last segment is `Vec` with
exactly one generic type argument; returns that argument. -/
def singleVecArg : RsType → Option RsType
  | .path segments =>
    match segments.getLast? with
    | some pe =>
      if pe.identOf == "Vec" then
        match pe.argumentsOf with
        | .angleBracketed [.typeArg t] => some t
        | _ => none
      else none
    | none => none
  | .otherTy => none

/-- Spec side: a path type with no segments at all (never produced by parsing
actual Rust, but representable in `syn`). -/
def emptyPath : RsType → Bool
  | .path segments => segments.getLast?.isNone
  | .otherTy => false

/-- Spec side: the conditions under which classifying one field aborts:
a malformed first `mutable_type` attribute, a `mutable_type` value that is
not a valid identifier, or an unnamed field; absent the annotation, also an
empty path type or a `Vec`-headed type without exactly one generic type
argument. -/
def fieldAborts (f : Field) : Bool :=
  match findMT f with
  | some a =>
    (match attrStrValue a with
     | none => true
     | some s => !identOk s)
    || f.ident.isNone
  | none =>
    f.ident.isNone || emptyPath f.ty || (lastSegIsVec f.ty && (singleVecArg f.ty).isNone)

/-- Spec side: the first outer `MutableStructName` attribute on the struct,
if any. -/
def findMSN (ast : ItemStruct) : Option Attribute :=
  ast.attrs.find? (fun a => a.isOuter && a.isIdent "MutableStructName")

/-- Spec side: the conditions under which the whole derive aborts: a
malformed first outer `MutableStructName` attribute, a `MutableStructName`
value that is not a valid identifier, or some field whose classification
aborts. -/
def structAborts (ast : ItemStruct) : Bool :=
  (match findMSN ast with
   | some a =>
     match attrStrValue a with
     | none => true
     | some s => !identOk s
   | none => false)
  || ast.fields.any fieldAborts

/-! ### Correspondence lemmas between the loops and the spec-side `find?` -/

/-- How the `mutable_type` loop treats the first matching attribute. -/
def mtInterp (a : Attribute) : Except String (Option String) :=
  match a.parseMeta with
  | .ok (.nameValue (.str s)) => .ok (some s)
  | .ok (.nameValue _) => .error "Found a mutable_type that is not a string."
  | .ok _ => .error "Format mutable_type as #[mutable_type = \"MyMutableName\"]"
  | .error _ =>
    .error "Found a malformed mutable_type. Format mutable_type as #[mutable_type = \"Name\"]"

theorem maybe_get_mutable_type_loop_eq (attrs : List Attribute) :
    maybe_get_mutable_type_loop attrs =
      match attrs.find? (fun a => a.isIdent "mutable_type") with
      | some a => mtInterp a
      | none => .ok none := by
  induction attrs with
  | nil => rfl
  | cons attr rest ih =>
    by_cases h : attr.isIdent "mutable_type" = true
    · simp [maybe_get_mutable_type_loop, List.find?, h, mtInterp]
    · simp only [maybe_get_mutable_type_loop, List.find?, h]
      simp only [Bool.not_eq_true] at h
      simp [h, ih]

/-- How the `MutableStructName` loop treats the first matching outer
attribute. -/
def msnInterp (a : Attribute) : Except String (Option String) :=
  match a.parseMeta with
  | .ok (.nameValue (.str s)) => .ok (some s)
  | .ok (.nameValue _) => .error "Found a MutableStructName that is not a string."
  | .ok _ => .error "Format MutableStructName as #[MutableStructName = \"MyMutableName\"]"
  | .error _ =>
    .error "Found a malformed MutableStructName. Format MutableStructName as #[MutableStructName = \"Name\"]"

theorem maybe_get_mutable_name_loop_eq (attrs : List Attribute) :
    maybe_get_mutable_name_loop attrs =
      match attrs.find? (fun a => a.isOuter && a.isIdent "MutableStructName") with
      | some a => msnInterp a
      | none => .ok none := by
  induction attrs with
  | nil => rfl
  | cons attr rest ih =>
    by_cases ho : attr.isOuter = true
    · by_cases h : attr.isIdent "MutableStructName" = true
      · simp [maybe_get_mutable_name_loop, List.find?, ho, h, msnInterp]
      · simp only [maybe_get_mutable_name_loop, List.find?, ho, h]
        simp only [Bool.not_eq_true] at h
        simp [ho, h, ih]
    · simp only [Bool.not_eq_true] at ho
      simp [maybe_get_mutable_name_loop, List.find?, ho, ih]

/-- Case analysis of `maybe_get_vec_type` against the spec-side view of the
declared type. -/
theorem maybe_get_vec_type_spec (f : Field) :
    (∀ t, singleVecArg f.ty = some t → maybe_get_vec_type f = .ok (some t)) ∧
    (emptyPath f.ty = false → lastSegIsVec f.ty = false → maybe_get_vec_type f = .ok none) ∧
    ((emptyPath f.ty || (lastSegIsVec f.ty && (singleVecArg f.ty).isNone)) = true →
      ∃ e, maybe_get_vec_type f = .error e) := by
  obtain ⟨attrs, ident, vis, ty⟩ := f
  cases ty with
  | otherTy =>
    refine ⟨?_, ?_, ?_⟩ <;> simp [maybe_get_vec_type, singleVecArg, emptyPath, lastSegIsVec]
  | path segs =>
    cases hl : segs.getLast? with
    | none =>
      refine ⟨?_, ?_, ?_⟩ <;>
        simp [maybe_get_vec_type, singleVecArg, emptyPath, lastSegIsVec, hl]
    | some pe =>
      by_cases hv : pe.identOf == "Vec"
      · cases hargs : pe.argumentsOf with
        | noArgs =>
          refine ⟨?_, ?_, ?_⟩ <;>
            simp [maybe_get_vec_type, singleVecArg, emptyPath, lastSegIsVec, hl, hv, hargs]
        | parenthesized =>
          refine ⟨?_, ?_, ?_⟩ <;>
            simp [maybe_get_vec_type, singleVecArg, emptyPath, lastSegIsVec, hl, hv, hargs]
        | angleBracketed args =>
          rcases args with _ | ⟨ga, rest⟩
          · refine ⟨?_, ?_, ?_⟩ <;>
              simp [maybe_get_vec_type, singleVecArg, emptyPath, lastSegIsVec, hl, hv, hargs]
          · rcases rest with _ | ⟨ga2, rest2⟩
            · cases ga with
              | typeArg t =>
                refine ⟨?_, ?_, ?_⟩ <;>
                  simp [maybe_get_vec_type, singleVecArg, emptyPath, lastSegIsVec, hl, hv, hargs]
              | otherArg =>
                refine ⟨?_, ?_, ?_⟩ <;>
                  simp [maybe_get_vec_type, singleVecArg, emptyPath, lastSegIsVec, hl, hv, hargs]
            · refine ⟨?_, ?_, ?_⟩ <;>
                simp [maybe_get_vec_type, singleVecArg, emptyPath, lastSegIsVec, hl, hv, hargs]
      · simp only [Bool.not_eq_true] at hv
        refine ⟨?_, ?_, ?_⟩ <;>
          simp [maybe_get_vec_type, singleVecArg, emptyPath, lastSegIsVec, hl, hv]

/-- Master case analysis of the classifier `fromField` against the spec-side
view of the field. -/
theorem fromField_spec (f : Field) :
    (∀ a s n, findMT f = some a → attrStrValue a = some s → identOk s = true →
      f.ident = some n → fromField f = .ok (.mutableStruct n f.vis s)) ∧
    (∀ a, findMT f = some a → attrStrValue a = none → ∃ e, fromField f = .error e) ∧
    (∀ a s, findMT f = some a → attrStrValue a = some s → identOk s = false →
      ∃ e, fromField f = .error e) ∧
    (∀ n t, findMT f = none → singleVecArg f.ty = some t → f.ident = some n →
      fromField f = .ok (.vec n f.vis t)) ∧
    (∀ n, findMT f = none → emptyPath f.ty = false → lastSegIsVec f.ty = false →
      f.ident = some n → fromField f = .ok (.basic n f.vis f.ty)) ∧
    (findMT f = none →
      (emptyPath f.ty || (lastSegIsVec f.ty && (singleVecArg f.ty).isNone)) = true →
      ∃ e, fromField f = .error e) ∧
    (f.ident = none → ∃ e, fromField f = .error e) := by
  have hmt : maybe_get_mutable_type f =
      match findMT f with
      | some a => mtInterp a
      | none => .ok none :=
    maybe_get_mutable_type_loop_eq f.attrs
  obtain ⟨hv1, hv2, hv3⟩ := maybe_get_vec_type_spec f
  cases hfind : findMT f with
  | some a =>
    rw [hfind] at hmt
    cases hpm : a.parseMeta with
    | ok m =>
      cases m with
      | nameValue l =>
        cases l with
        | str s =>
          have hval : attrStrValue a = some s := by simp [attrStrValue, hpm]
          have hmt' : maybe_get_mutable_type f = .ok (some s) := by
            rw [hmt]; simp [mtInterp, hpm]
          refine ⟨?_, ?_, ?_, ?_, ?_, ?_, ?_⟩
          · intro a' s' n ha' hs' hio hn
            cases ha'
            rw [hval] at hs'; cases hs'
            have hfi := format_ident_of_identOk _ hio
            simp [fromField, hmt', hn, hfi]
          · intro a' ha' hs'
            cases ha'
            rw [hval] at hs'; cases hs'
          · intro a' s' ha' hs' hio
            cases ha'
            rw [hval] at hs'; cases hs'
            rcases hid : f.ident with _ | n
            · exact ⟨"called Option::unwrap() on a None value",
                by simp [fromField, hmt', hid]⟩
            · obtain ⟨e, he⟩ := format_ident_error_of_not _ hio
              exact ⟨e, by simp [fromField, hmt', hid, he]⟩
          · intro n t h; cases h
          · intro n h; cases h
          · intro h; cases h
          · intro hn
            refine ⟨"called Option::unwrap() on a None value", ?_⟩
            simp [fromField, hmt', hn]
        | otherLit =>
          have hval : attrStrValue a = none := by simp [attrStrValue, hpm]
          have hmt' : maybe_get_mutable_type f =
              .error "Found a mutable_type that is not a string." := by
            rw [hmt]; simp [mtInterp, hpm]
          refine ⟨?_, ?_, ?_, ?_, ?_, ?_, ?_⟩
          · intro a' s' n ha' hs' hio hn
            cases ha'
            rw [hval] at hs'; cases hs'
          · intro a' ha' _
            exact ⟨"Found a mutable_type that is not a string.", by simp [fromField, hmt']⟩
          · intro a' s' ha' hs' hio
            cases ha'
            rw [hval] at hs'; cases hs'
          · intro n t h; cases h
          · intro n h; cases h
          · intro h; cases h
          · intro hn
            exact ⟨"Found a mutable_type that is not a string.", by simp [fromField, hmt']⟩
      | metaPath =>
        have hval : attrStrValue a = none := by simp [attrStrValue, hpm]
        have hmt' : maybe_get_mutable_type f =
            .error "Format mutable_type as #[mutable_type = \"MyMutableName\"]" := by
          rw [hmt]; simp [mtInterp, hpm]
        refine ⟨?_, ?_, ?_, ?_, ?_, ?_, ?_⟩
        · intro a' s' n ha' hs' hio hn
          cases ha'
          rw [hval] at hs'; cases hs'
        · intro a' ha' _
          exact ⟨"Format mutable_type as #[mutable_type = \"MyMutableName\"]",
            by simp [fromField, hmt']⟩
        · intro a' s' ha' hs' hio
          cases ha'
          rw [hval] at hs'; cases hs'
        · intro n t h; cases h
        · intro n h; cases h
        · intro h; cases h
        · intro hn
          exact ⟨"Format mutable_type as #[mutable_type = \"MyMutableName\"]",
            by simp [fromField, hmt']⟩
      | metaList =>
        have hval : attrStrValue a = none := by simp [attrStrValue, hpm]
        have hmt' : maybe_get_mutable_type f =
            .error "Format mutable_type as #[mutable_type = \"MyMutableName\"]" := by
          rw [hmt]; simp [mtInterp, hpm]
        refine ⟨?_, ?_, ?_, ?_, ?_, ?_, ?_⟩
        · intro a' s' n ha' hs' hio hn
          cases ha'
          rw [hval] at hs'; cases hs'
        · intro a' ha' _
          exact ⟨"Format mutable_type as #[mutable_type = \"MyMutableName\"]",
            by simp [fromField, hmt']⟩
        · intro a' s' ha' hs' hio
          cases ha'
          rw [hval] at hs'; cases hs'
        · intro n t h; cases h
        · intro n h; cases h
        · intro h; cases h
        · intro hn
          exact ⟨"Format mutable_type as #[mutable_type = \"MyMutableName\"]",
            by simp [fromField, hmt']⟩
    | error u =>
      have hval : attrStrValue a = none := by simp [attrStrValue, hpm]
      have hmt' : maybe_get_mutable_type f =
          .error "Found a malformed mutable_type. Format mutable_type as #[mutable_type = \"Name\"]" := by
        rw [hmt]; simp [mtInterp, hpm]
      refine ⟨?_, ?_, ?_, ?_, ?_, ?_, ?_⟩
      · intro a' s' n ha' hs' hio hn
        cases ha'
        rw [hval] at hs'; cases hs'
      · intro a' ha' _
        exact ⟨"Found a malformed mutable_type. Format mutable_type as #[mutable_type = \"Name\"]",
          by simp [fromField, hmt']⟩
      · intro a' s' ha' hs' hio
        cases ha'
        rw [hval] at hs'; cases hs'
      · intro n t h; cases h
      · intro n h; cases h
      · intro h; cases h
      · intro hn
        exact ⟨"Found a malformed mutable_type. Format mutable_type as #[mutable_type = \"Name\"]",
          by simp [fromField, hmt']⟩
  | none =>
    rw [hfind] at hmt
    refine ⟨?_, ?_, ?_, ?_, ?_, ?_, ?_⟩
    · intro a' s' n ha' hs' hio hn; cases ha'
    · intro a' ha' _; cases ha'
    · intro a' s' ha' hs' hio; cases ha'
    · intro n t _ hsv hn
      have hvec := hv1 t hsv
      simp [fromField, hmt, hvec, hn]
    · intro n _ hep hls hn
      have hvec := hv2 hep hls
      simp [fromField, hmt, hvec, hn]
    · intro _ hbad
      obtain ⟨e, he⟩ := hv3 hbad
      exact ⟨e, by simp [fromField, hmt, he]⟩
    · intro hn
      rcases hvt : maybe_get_vec_type f with e | ot
      · exact ⟨e, by simp [fromField, hmt, hvt]⟩
      · cases ot with
        | none =>
          exact ⟨"called Option::unwrap() on a None value",
            by simp [fromField, hmt, hvt, hn]⟩
        | some t =>
          exact ⟨"called Option::unwrap() on a None value",
            by simp [fromField, hmt, hvt, hn]⟩

/-- Classification of a field succeeds or aborts exactly as `fieldAborts`
says. -/
theorem fromField_total (f : Field) :
    (fieldAborts f = true → ∃ e, fromField f = .error e) ∧
    (fieldAborts f = false → ∃ k, fromField f = .ok k) := by
  obtain ⟨h1, h2, h3, h4, h5, h6, h7⟩ := fromField_spec f
  cases hfind : findMT f with
  | some a =>
    have habeq : fieldAborts f =
        ((match attrStrValue a with
          | none => true
          | some s => !identOk s) || f.ident.isNone) := by
      unfold fieldAborts; rw [hfind]
    constructor
    · intro hab
      rcases hsv : attrStrValue a with _ | s
      · exact h2 a hfind hsv
      · rcases hid : f.ident with _ | n
        · exact h7 hid
        · cases hio : identOk s with
          | false => exact h3 a s hfind hsv hio
          | true =>
            rw [habeq, hsv, hid] at hab
            simp [hio] at hab
    · intro hab
      rw [habeq] at hab
      rcases hsv : attrStrValue a with _ | s
      · rw [hsv] at hab; simp at hab
      · rw [hsv] at hab
        replace hab : (!identOk s || f.ident.isNone) = false := hab
        rcases hid : f.ident with _ | n
        · rw [hid] at hab; simp at hab
        · cases hio : identOk s with
          | false => rw [hio] at hab; simp at hab
          | true => exact ⟨_, h1 a s n hfind hsv hio hid⟩
  | none =>
    have habeq : fieldAborts f =
        (f.ident.isNone || emptyPath f.ty
          || (lastSegIsVec f.ty && (singleVecArg f.ty).isNone)) := by
      unfold fieldAborts; rw [hfind]
    constructor
    · intro hab
      rcases hid : f.ident with _ | n
      · exact h7 hid
      · rw [habeq, hid] at hab
        simp only [Option.isNone_some, Bool.false_or] at hab
        exact h6 hfind hab
    · intro hab
      rw [habeq] at hab
      rcases hid : f.ident with _ | n
      · rw [hid] at hab; simp at hab
      · by_cases hep : emptyPath f.ty = true
        · rw [hep] at hab; simp at hab
        · simp only [Bool.not_eq_true] at hep
          by_cases hls : lastSegIsVec f.ty = true
          · rcases hsv : singleVecArg f.ty with _ | t
            · rw [hls, hsv] at hab; simp at hab
            · exact ⟨_, h4 n t hfind hsv hid⟩
          · simp only [Bool.not_eq_true] at hls
            exact ⟨_, h5 n hfind hep hls hid⟩

/-- Classification succeeds iff the field does not abort. -/
theorem fromField_ok_iff (f : Field) :
    (∃ k, fromField f = .ok k) ↔ fieldAborts f = false := by
  obtain ⟨ht, hf⟩ := fromField_total f
  constructor
  · intro ⟨k, hk⟩
    by_contra h
    have hab : fieldAborts f = true := by
      revert h; cases fieldAborts f <;> simp
    obtain ⟨e, he⟩ := ht hab
    rw [hk] at he; cases he
  · exact hf

/-- Classification aborts iff the field aborts. -/
theorem fromField_error_iff (f : Field) :
    (∃ e, fromField f = .error e) ↔ fieldAborts f = true := by
  obtain ⟨ht, hf⟩ := fromField_total f
  constructor
  · intro ⟨e, he⟩
    by_contra h
    have hab : fieldAborts f = false := by
      revert h; cases fieldAborts f <;> simp
    obtain ⟨k, hk⟩ := hf hab
    rw [he] at hk; cases hk
  · exact ht

/-- Collecting the classified fields succeeds iff no field aborts. -/
theorem fieldsFrom_ok_iff (fs : List Field) :
    (∃ ks, fieldsFrom fs = .ok ks) ↔ fs.all (fun f => fieldAborts f = false) = true := by
  induction fs with
  | nil => exact ⟨fun _ => by simp, fun _ => ⟨[], rfl⟩⟩
  | cons f fs ih =>
    simp only [List.all_cons, Bool.and_eq_true, decide_eq_true_eq]
    constructor
    · intro ⟨ks, hks⟩
      unfold fieldsFrom at hks
      rcases hf : fromField f with e | k
      · rw [hf] at hks; cases hks
      · rw [hf] at hks
        rcases hrest : fieldsFrom fs with e | ks'
        · rw [hrest] at hks; cases hks
        · exact ⟨(fromField_ok_iff f).mp ⟨k, hf⟩, ih.mp ⟨ks', hrest⟩⟩
    · intro ⟨habort, hall⟩
      obtain ⟨k, hk⟩ := (fromField_ok_iff f).mpr habort
      obtain ⟨ks, hks⟩ := ih.mpr hall
      exact ⟨k :: ks, by simp [fieldsFrom, hk, hks]⟩

/-- A well-formed string name-value attribute is read by `msnInterp` as its
value. -/
theorem msnInterp_of_strValue (a : Attribute) (s : String)
    (hs : attrStrValue a = some s) : msnInterp a = .ok (some s) := by
  unfold attrStrValue at hs
  unfold msnInterp
  rcases hpm : a.parseMeta with u | m
  · rw [hpm] at hs; cases hs
  · cases m with
    | nameValue l =>
      cases l with
      | str s' =>
        rw [hpm] at hs
        simp at hs
        subst hs
        simp [hpm]
      | otherLit => rw [hpm] at hs; cases hs
    | metaPath => rw [hpm] at hs; cases hs
    | metaList => rw [hpm] at hs; cases hs

/-- Case analysis of `mutable_name_of` against the spec-side view of the
struct's outer attributes (the value must also be a valid identifier for
`format_ident!` to succeed). -/
theorem mutable_name_of_spec (ast : ItemStruct) :
    (∀ a s, findMSN ast = some a → attrStrValue a = some s → identOk s = true →
      mutable_name_of ast = .ok s) ∧
    (findMSN ast = none → mutable_name_of ast = .ok ("Mutable" ++ ast.ident)) ∧
    (∀ a, findMSN ast = some a → attrStrValue a = none → ∃ e, mutable_name_of ast = .error e) ∧
    (∀ a s, findMSN ast = some a → attrStrValue a = some s → identOk s = false →
      ∃ e, mutable_name_of ast = .error e) := by
  have hn : maybe_get_mutable_name ast =
      match findMSN ast with
      | some a => msnInterp a
      | none => .ok none :=
    maybe_get_mutable_name_loop_eq ast.attrs
  cases hfind : findMSN ast with
  | some a =>
    rw [hfind] at hn
    replace hn : maybe_get_mutable_name ast = msnInterp a := hn
    refine ⟨?_, ?_, ?_, ?_⟩
    · intro a' s ha' hs hio
      cases ha'
      rw [msnInterp_of_strValue a s hs] at hn
      simp [mutable_name_of, hn, format_ident_of_identOk s hio]
    · intro h; cases h
    · intro a' ha' hs
      cases ha'
      unfold attrStrValue at hs
      unfold msnInterp at hn
      rcases hpm : a.parseMeta with u | m
      · rw [hpm] at hn
        exact ⟨"Found a malformed MutableStructName. Format MutableStructName as #[MutableStructName = \"Name\"]",
          by simp [mutable_name_of, hn]⟩
      · cases m with
        | nameValue l =>
          cases l with
          | str s' => rw [hpm] at hs; cases hs
          | otherLit =>
            rw [hpm] at hn
            exact ⟨"Found a MutableStructName that is not a string.",
              by simp [mutable_name_of, hn]⟩
        | metaPath =>
          rw [hpm] at hn
          exact ⟨"Format MutableStructName as #[MutableStructName = \"MyMutableName\"]",
            by simp [mutable_name_of, hn]⟩
        | metaList =>
          rw [hpm] at hn
          exact ⟨"Format MutableStructName as #[MutableStructName = \"MyMutableName\"]",
            by simp [mutable_name_of, hn]⟩
    · intro a' s ha' hs hio
      cases ha'
      rw [msnInterp_of_strValue a s hs] at hn
      obtain ⟨e, he⟩ := format_ident_error_of_not s hio
      exact ⟨e, by simp [mutable_name_of, hn, he]⟩
  | none =>
    rw [hfind] at hn
    refine ⟨?_, ?_, ?_, ?_⟩
    · intro a' s ha' hs hio; cases ha'
    · intro _; simp [mutable_name_of, hn]
    · intro a' ha' hs; cases ha'
    · intro a' s ha' hs hio; cases ha'

/-- Collecting the classified fields aborts iff some field aborts. -/
theorem fieldsFrom_error_iff (fs : List Field) :
    (∃ e, fieldsFrom fs = .error e) ↔ fs.any fieldAborts = true := by
  induction fs with
  | nil =>
    constructor
    · intro ⟨e, he⟩; cases he
    · intro h; simp at h
  | cons f fs ih =>
    simp only [List.any_cons, Bool.or_eq_true]
    constructor
    · intro ⟨e, he⟩
      unfold fieldsFrom at he
      rcases hf : fromField f with e' | k
      · exact Or.inl ((fromField_error_iff f).mp ⟨e', hf⟩)
      · rw [hf] at he
        rcases hrest : fieldsFrom fs with e' | ks
        · exact Or.inr (ih.mp ⟨e', hrest⟩)
        · rw [hrest] at he; cases he
    · intro h
      rcases h with h | h
      · obtain ⟨e, he⟩ := (fromField_error_iff f).mpr h
        exact ⟨e, by simp [fieldsFrom, he]⟩
      · obtain ⟨e, he⟩ := ih.mpr h
        rcases hf : fromField f with e' | k
        · exact ⟨e', by simp [fieldsFrom, hf]⟩
        · exact ⟨e, by simp [fieldsFrom, hf, he]⟩

/-- The whole derive aborts iff the struct aborts per the spec-side
`structAborts`. -/
theorem derive_error_iff (ast : ItemStruct) :
    (∃ e, as_mutable_struct_derive ast = .error e) ↔ structAborts ast = true := by
  obtain ⟨hm1, hm2, hm3, hm4⟩ := mutable_name_of_spec ast
  cases hfind : findMSN ast with
  | some a =>
    rcases hsv : attrStrValue a with _ | s
    · obtain ⟨e, he⟩ := hm3 a hfind hsv
      constructor
      · intro _; simp [structAborts, hfind, hsv]
      · intro _
        exact ⟨e, by simp [as_mutable_struct_derive, he]⟩
    · cases hio : identOk s with
      | false =>
        obtain ⟨e, he⟩ := hm4 a s hfind hsv hio
        constructor
        · intro _; simp [structAborts, hfind, hsv, hio]
        · intro _
          exact ⟨e, by simp [as_mutable_struct_derive, he]⟩
      | true =>
        have hname := hm1 a s hfind hsv hio
        constructor
        · intro ⟨e, he⟩
          simp only [as_mutable_struct_derive, hname] at he
          rcases hrest : fieldsFrom ast.fields with e' | ks
          · have hany := (fieldsFrom_error_iff ast.fields).mp ⟨e', hrest⟩
            simp [structAborts, hfind, hsv, hio, hany]
          · rw [hrest] at he; cases he
        · intro h
          simp only [structAborts, hfind, hsv, hio] at h
          simp only [Bool.not_true, Bool.false_or] at h
          obtain ⟨e, he⟩ := (fieldsFrom_error_iff ast.fields).mpr h
          exact ⟨e, by simp [as_mutable_struct_derive, hname, he]⟩
  | none =>
    have hname := hm2 hfind
    constructor
    · intro ⟨e, he⟩
      simp only [as_mutable_struct_derive, hname] at he
      rcases hrest : fieldsFrom ast.fields with e' | ks
      · have hany := (fieldsFrom_error_iff ast.fields).mp ⟨e', hrest⟩
        simp [structAborts, hfind, hany]
      · rw [hrest] at he; cases he
    · intro h
      simp only [structAborts, hfind, Bool.false_or] at h
      obtain ⟨e, he⟩ := (fieldsFrom_error_iff ast.fields).mpr h
      exact ⟨e, by simp [as_mutable_struct_derive, hname, he]⟩

/-- Kind discriminator: scalar cell. -/
def MutableStructField.isBasicKind : MutableStructField → Bool
  | .basic _ _ _ => true
  | _ => false

/-- Kind discriminator: nested mutable struct. -/
def MutableStructField.isMutableStructKind : MutableStructField → Bool
  | .mutableStruct _ _ _ => true
  | _ => false

/-- Kind discriminator: reactive list. -/
def MutableStructField.isVecKind : MutableStructField → Bool
  | .vec _ _ _ => true
  | _ => false

/-- A field declared as plain `Vec` (no generic arguments) with no
attributes: `syn` parses it, the claimed classification calls it a scalar
cell, the code panics. -/
def fieldVecNoGeneric : Field :=
  ⟨[], some "items", "pub", RsType.path [PathSegment.mk "Vec" PathArguments.noArgs]⟩

/-- A field declared as `Vec<u8, u16>` (two generic arguments) with no
attributes: the `assert_eq!` in `maybe_get_vec_type` fails. -/
def fieldVecTwoGenerics : Field :=
  ⟨[], some "xs", "",
   RsType.path [PathSegment.mk "Vec" (PathArguments.angleBracketed
     [GenericArgument.typeArg (RsType.path [PathSegment.mk "u8" PathArguments.noArgs]),
      GenericArgument.typeArg (RsType.path [PathSegment.mk "u16" PathArguments.noArgs])])]⟩

/-- A struct with no attributes anywhere whose single field is `Vec<>`
(empty generic argument list): the generator aborts with no annotation in
sight. -/
def structVecEmptyGenerics : ItemStruct :=
  ⟨[], "", "S",
   [⟨[], some "xs", "",
     RsType.path [PathSegment.mk "Vec" (PathArguments.angleBracketed [])]⟩]⟩

/-- C3 counterexample: the claim says a field with no `mutable_type`
annotation whose type is not a `Vec` with exactly one generic type argument
is classified as a scalar cell; on the field `items: Vec` (no generic
arguments) classification instead panics. -/
theorem C3_counterexample :
    fromField fieldVecNoGeneric = .error "Found a Vec without a generic type" ∧
    fromField fieldVecNoGeneric
      ≠ .ok (.basic "items" "pub" (RsType.path [PathSegment.mk "Vec" PathArguments.noArgs])) := by
  refine ⟨rfl, ?_⟩
  intro h
  rw [show fromField fieldVecNoGeneric = .error "Found a Vec without a generic type" from rfl]
    at h
  cases h

/-- C3 (amended): for every named field, a well-formed first `mutable_type`
attribute whose value is a lexically valid identifier classifies the field as
a nested mutable struct with the annotated name; a malformed attribute, or a
value that is not a valid identifier, aborts; absent the annotation, a type
that is a path whose last segment is `Vec` with exactly one generic type
argument `T` classifies it as a reactive list over `T`, a `Vec`-headed type
without exactly one generic type argument (or an empty path) aborts, and any
other type classifies it as a scalar cell wrapping the declared type. -/
theorem C3_field_classification (f : Field) (n : String) (hn : f.ident = some n) :
    (∀ a s, findMT f = some a → attrStrValue a = some s → identOk s = true →
      fromField f = .ok (.mutableStruct n f.vis s)) ∧
    (∀ a, findMT f = some a → attrStrValue a = none → ∃ e, fromField f = .error e) ∧
    (∀ a s, findMT f = some a → attrStrValue a = some s → identOk s = false →
      ∃ e, fromField f = .error e) ∧
    (∀ t, findMT f = none → singleVecArg f.ty = some t →
      fromField f = .ok (.vec n f.vis t)) ∧
    (findMT f = none → emptyPath f.ty = false → lastSegIsVec f.ty = false →
      fromField f = .ok (.basic n f.vis f.ty)) ∧
    (findMT f = none →
      (emptyPath f.ty || (lastSegIsVec f.ty && (singleVecArg f.ty).isNone)) = true →
      ∃ e, fromField f = .error e) := by
  obtain ⟨h1, h2, h3, h4, h5, h6, _⟩ := fromField_spec f
  exact ⟨fun a s ha hs hio => h1 a s n ha hs hio hn, h2, h3,
    fun t hf hs => h4 n t hf hs hn, fun hf hep hls => h5 n hf hep hls hn, h6⟩

/-- Witness for the amended C3: a concrete annotated field is classified as a
nested mutable struct. -/
theorem C3_field_classification_witness :
    fromField ⟨[⟨.outer, ["mutable_type"], .ok (.nameValue (.str "MutableScore"))⟩],
        some "score", "pub", RsType.otherTy⟩
      = .ok (.mutableStruct "score" "pub" "MutableScore") :=
  (C3_field_classification
      ⟨[⟨.outer, ["mutable_type"], .ok (.nameValue (.str "MutableScore"))⟩],
        some "score", "pub", RsType.otherTy⟩ "score" rfl).1
    ⟨.outer, ["mutable_type"], .ok (.nameValue (.str "MutableScore"))⟩ "MutableScore"
    rfl rfl (by decide)

/-- C4 counterexample: the claim says classification succeeds for every
field; on the field `xs: Vec<u8, u16>` the `assert_eq!` fails. -/
theorem C4_counterexample :
    fromField fieldVecTwoGenerics = .error "assertion failed: generic.args.len() == 1" ∧
    fieldAborts fieldVecTwoGenerics = true :=
  ⟨rfl, rfl⟩

/-- C4 (amended): classification assigns exactly one of the three mutually
exclusive field kinds whenever it succeeds, it succeeds exactly when the
field does not abort (named field, well-formed `mutable_type` with a valid
identifier value if present, well-formed `Vec` generics if `Vec`-headed
without the annotation), and the four code emitters are total (produce code)
on every classified field. -/
theorem C4_classification_total :
    (∀ f, (∃ k, fromField f = .ok k) ↔ fieldAborts f = false) ∧
    (∀ k : MutableStructField,
      (k.isBasicKind || k.isMutableStructKind || k.isVecKind) = true ∧
      (k.isBasicKind && k.isMutableStructKind) = false ∧
      (k.isBasicKind && k.isVecKind) = false ∧
      (k.isMutableStructKind && k.isVecKind) = false) ∧
    (∀ k sn, get_mutable_field_definition k ≠ [] ∧ get_constructor k sn ≠ [] ∧
      get_snapshot_generator k ≠ [] ∧ get_update_setter k sn ≠ []) := by
  refine ⟨fromField_ok_iff, ?_, ?_⟩
  · intro k
    cases k <;> exact ⟨rfl, rfl, rfl, rfl⟩
  · intro k sn
    cases k <;>
      exact ⟨by simp [get_mutable_field_definition], by simp [get_constructor],
        by simp [get_snapshot_generator], by simp [get_update_setter]⟩

/-- C5 counterexample: the claim says the generator fails only on malformed
annotations; `structVecEmptyGenerics` carries no annotation at all (neither
on the struct nor on its field) yet the generator aborts. -/
theorem C5_counterexample :
    as_mutable_struct_derive structVecEmptyGenerics
      = .error "assertion failed: generic.args.len() == 1" ∧
    structVecEmptyGenerics.attrs = [] ∧
    (structVecEmptyGenerics.fields.all fun f => f.attrs.isEmpty) = true :=
  ⟨rfl, rfl, rfl⟩

/-- C5 (amended): the generator aborts (with a diagnostic message) exactly
when the struct aborts per `structAborts`: a malformed first outer
`MutableStructName` attribute or one whose value is not a valid identifier,
or some field whose classification aborts (malformed `mutable_type`, a
`mutable_type` value that is not a valid identifier, unnamed field, or
malformed `Vec` generics); on every other parsed struct it succeeds. -/
theorem C5_failure_characterization (ast : ItemStruct) :
    ((∃ e, as_mutable_struct_derive ast = .error e) ↔ structAborts ast = true) ∧
    ((∃ out, as_mutable_struct_derive ast = .ok out) ↔ structAborts ast = false) := by
  refine ⟨derive_error_iff ast, ?_⟩
  constructor
  · intro ⟨out, hout⟩
    by_contra h
    have hab : structAborts ast = true := by
      revert h; cases structAborts ast <;> simp
    obtain ⟨e, he⟩ := (derive_error_iff ast).mpr hab
    rw [hout] at he; cases he
  · intro hab
    rcases hd : as_mutable_struct_derive ast with e | out
    · have := (derive_error_iff ast).mp ⟨e, hd⟩
      rw [hab] at this; cases this
    · exact ⟨out, rfl⟩

/-- C8: a field whose (first) `mutable_type` annotation is present and
well-formed (a string that is a valid identifier) is classified as a nested
mutable struct even when its declared type is `Vec<T>`; moreover any field
carrying a `mutable_type`-named attribute is never classified as a reactive
list. -/
theorem C8_annotation_precedence :
    (∀ f n s t, f.ident = some n → maybe_get_mutable_type f = .ok (some s) →
      identOk s = true → singleVecArg f.ty = some t →
      fromField f = .ok (.mutableStruct n f.vis s)) ∧
    (∀ f k, (f.attrs.any fun a => a.isIdent "mutable_type") = true →
      fromField f = .ok k → k.isVecKind = false) := by
  constructor
  · intro f n s t hn hmt hio _
    simp [fromField, hmt, hn, format_ident_of_identOk s hio]
  · intro f k hany hk
    have hfind : ∃ a, findMT f = some a := by
      rcases hs : findMT f with _ | a
      · exfalso
        have hnone := List.find?_eq_none.mp hs
        simp only [List.any_eq_true] at hany
        obtain ⟨a, ha, hpa⟩ := hany
        exact absurd hpa (by simpa using hnone a ha)
      · exact ⟨a, rfl⟩
    obtain ⟨a, hfa⟩ := hfind
    obtain ⟨h1, h2, h3, _, _, _, h7⟩ := fromField_spec f
    rcases hsv : attrStrValue a with _ | s
    · obtain ⟨e, he⟩ := h2 a hfa hsv
      rw [hk] at he; cases he
    · rcases hid : f.ident with _ | n
      · obtain ⟨e, he⟩ := h7 hid
        rw [hk] at he; cases he
      · cases hio : identOk s with
        | false =>
          obtain ⟨e, he⟩ := h3 a s hfa hsv hio
          rw [hk] at he; cases he
        | true =>
          have hok := h1 a s n hfa hsv hio hid
          rw [hk] at hok
          cases hok
          rfl

/-- Witness for C8: a field annotated `mutable_type = "MutableEvents"` whose
declared type is `Vec<String>` is classified as a nested mutable struct. -/
theorem C8_annotation_precedence_witness :
    fromField ⟨[⟨.outer, ["mutable_type"], .ok (.nameValue (.str "MutableEvents"))⟩],
        some "events", "pub",
        RsType.path [PathSegment.mk "Vec" (PathArguments.angleBracketed
          [GenericArgument.typeArg (RsType.path [PathSegment.mk "String" PathArguments.noArgs])])]⟩
      = .ok (.mutableStruct "events" "pub" "MutableEvents") :=
  C8_annotation_precedence.1
    ⟨[⟨.outer, ["mutable_type"], .ok (.nameValue (.str "MutableEvents"))⟩],
        some "events", "pub",
        RsType.path [PathSegment.mk "Vec" (PathArguments.angleBracketed
          [GenericArgument.typeArg (RsType.path [PathSegment.mk "String" PathArguments.noArgs])])]⟩
    "events" "MutableEvents"
    (RsType.path [PathSegment.mk "String" PathArguments.noArgs]) rfl rfl (by decide) rfl

/-- C10: the companion struct's name is the value of the first outer
`MutableStructName` attribute when one is present and well-formed (a string
that is a valid identifier — otherwise the derive aborts), otherwise
`Mutable` prepended to the original struct's name; inner-style attributes are
ignored for this choice; and the name appears at the head of the emitted
struct declaration. -/
theorem C10_companion_name :
    (∀ ast a s, findMSN ast = some a → attrStrValue a = some s → identOk s = true →
      mutable_name_of ast = .ok s) ∧
    (∀ ast, findMSN ast = none → mutable_name_of ast = .ok ("Mutable" ++ ast.ident)) ∧
    (∀ ast a, a.isOuter = false →
      mutable_name_of ⟨a :: ast.attrs, ast.vis, ast.ident, ast.fields⟩
        = mutable_name_of ast) ∧
    (∀ ast name out, mutable_name_of ast = .ok name →
      as_mutable_struct_derive ast = .ok out → out[2]? = some (.name name)) ∧
    (∀ ast a s, findMSN ast = some a → attrStrValue a = some s → identOk s = false →
      ∃ e, mutable_name_of ast = .error e) := by
  refine ⟨?_, ?_, ?_, ?_, ?_⟩
  · intro ast a s hfind hsv hio
    exact (mutable_name_of_spec ast).1 a s hfind hsv hio
  · intro ast hfind
    exact (mutable_name_of_spec ast).2.1 hfind
  · intro ast a ha
    simp [mutable_name_of, maybe_get_mutable_name, maybe_get_mutable_name_loop, ha]
  · intro ast name out hname hout
    unfold as_mutable_struct_derive at hout
    rw [hname] at hout
    rcases hfs : fieldsFrom ast.fields with e | ks
    · rw [hfs] at hout; cases hout
    · rw [hfs] at hout
      cases hout
      simp [make_mutable_variant]
  · intro ast a s hfind hsv hio
    exact (mutable_name_of_spec ast).2.2.2 a s hfind hsv hio

/-- Witness for C10: the test struct `CustomNamedStruct` with
`#[MutableStructName = "MyMutableStruct"]` gets companion name
`MyMutableStruct`. -/
theorem C10_companion_name_witness :
    mutable_name_of ⟨[⟨.outer, ["MutableStructName"], .ok (.nameValue (.str "MyMutableStruct"))⟩],
        "", "CustomNamedStruct", []⟩
      = .ok "MyMutableStruct" :=
  C10_companion_name.1
    ⟨[⟨.outer, ["MutableStructName"], .ok (.nameValue (.str "MyMutableStruct"))⟩],
        "", "CustomNamedStruct", []⟩
    ⟨.outer, ["MutableStructName"], .ok (.nameValue (.str "MyMutableStruct"))⟩
    "MyMutableStruct" rfl rfl (by decide)

/-! ### Part 2: heap semantics of the generated code and the runtime traits

The generated mutable struct owns one `Mutable` cell per basic field, one
`MutableVec` per list field and a nested mutable struct per annotated field.
We give these a store semantics: a heap of cells addressed by allocation
order, with explicit allocation, read and write, so that frame and aliasing
properties are provable rather than definitional.  The payload type `α`
models the (cloneable) element values of the Rust fields. -/

/-- A heap cell: either a scalar `Mutable` payload or a `MutableVec`
payload. -/
inductive CellVal (α : Type) where
  | scalar (v : α)
  | vecCell (l : List α)

/-- The store: cells addressed by allocation order. -/
abbrev Heap (α : Type) := List (CellVal α)

/-- Read a cell (total with a junk default; Rust's ownership guarantees
reads of live cells only, and every theorem that needs it carries a validity
hypothesis). -/
def readCell {α : Type} [Inhabited α] (h : Heap α) (loc : Nat) : CellVal α :=
  h[loc]?.getD (CellVal.scalar default)

/-- Modelled from the external futures-signals crate: `Mutable::new`
allocates a fresh scalar cell. -/
def mutableNew {α : Type} (h : Heap α) (v : α) : Heap α × Nat :=
  (h ++ [CellVal.scalar v], h.length)

/-- Modelled from the external futures-signals crate:
`MutableVec::new_with_values` allocates a fresh vector cell. -/
def mutableVecNewWithValues {α : Type} (h : Heap α) (l : List α) : Heap α × Nat :=
  (h ++ [CellVal.vecCell l], h.length)

/-- Modelled from the external futures-signals crate: `Mutable::get_cloned`
reads the scalar cell at `loc`. -/
def mutableGetCloned {α : Type} [Inhabited α] (h : Heap α) (loc : Nat) : α :=
  match readCell h loc with
  | .scalar v => v
  | .vecCell _ => default

/-- Modelled from the external futures-signals crate:
`lock_ref().as_slice().to_vec()` reads the vector cell at `loc`. -/
def mutableVecToVec {α : Type} [Inhabited α] (h : Heap α) (loc : Nat) : List α :=
  match readCell h loc with
  | .vecCell l => l
  | .scalar _ => []

/-- Modelled from the external futures-signals crate: `Mutable::set`
overwrites the scalar cell at `loc`. -/
def mutableSet {α : Type} (h : Heap α) (loc : Nat) (v : α) : Heap α :=
  h.set loc (CellVal.scalar v)

/-- Modelled from the external futures-signals crate:
`lock_mut().replace_cloned` overwrites the vector cell at `loc`. -/
def mutableVecReplaceCloned {α : Type} (h : Heap α) (loc : Nat) (l : List α) : Heap α :=
  h.set loc (CellVal.vecCell l)

mutual
/-- A plain (snapshot) value: one constructor per field classification of the
derive macro — a scalar for a basic field, a list for a `Vec` field, a list
of field values for a (nested) derived struct. -/
inductive Value (α : Type) where
  | base (v : α)
  | vecV (l : List α)
  | structV (fields : ValueList α)

/-- The fields of a struct snapshot, in declaration order. -/
inductive ValueList (α : Type) where
  | nil
  | cons (head : Value α) (tail : ValueList α)
end

mutual
/-- A mutable (generated) struct value: a `Mutable` cell location for a basic
field, a `MutableVec` location for a `Vec` field, a nested mutable struct for
an annotated field. -/
inductive MValue (α : Type) where
  | cell (loc : Nat)
  | mvec (loc : Nat)
  | mstruct (fields : MValueList α)

/-- The fields of a generated mutable struct, in declaration order. -/
inductive MValueList (α : Type) where
  | nil
  | cons (head : MValue α) (tail : MValueList α)
end

mutual
/-- Semantics of the generated `as_mutable_struct` (and of
`impl AsMutableStruct for Vec<T>`): per field, the emitted constructor —
`Mutable::new(self.f)` for a basic field, `self.f.as_mutable_struct()` for a
nested field, `MutableVec::new_with_values(self.f.clone())` for a `Vec`
field. -/
def as_mutable_struct {α : Type} : Heap α → Value α → Heap α × MValue α
  | h, .base v => ((mutableNew h v).1, .cell (mutableNew h v).2)
  | h, .vecV l => ((mutableVecNewWithValues h l).1, .mvec (mutableVecNewWithValues h l).2)
  | h, .structV fs => ((as_mutable_fields h fs).1, .mstruct (as_mutable_fields h fs).2)

/-- Allocation (`as_mutable_struct`) over the fields in declaration order. -/
def as_mutable_fields {α : Type} : Heap α → ValueList α → Heap α × MValueList α
  | h, .nil => (h, .nil)
  | h, .cons v vs =>
    ((as_mutable_fields (as_mutable_struct h v).1 vs).1,
     .cons (as_mutable_struct h v).2 (as_mutable_fields (as_mutable_struct h v).1 vs).2)
end

mutual
/-- Semantics of the generated `snapshot` (and of `MutableStruct::snapshot`
for `MutableVec<T>`): per field, the emitted generator — `self.f.get_cloned()`
for a basic field, `self.f.snapshot()` for a nested field,
`self.f.lock_ref().as_slice().to_vec()` for a `Vec` field.  The heap is
threaded to make the absence of writes a theorem. -/
def snapshot {α : Type} [Inhabited α] : Heap α → MValue α → Heap α × Value α
  | h, .cell loc => (h, .base (mutableGetCloned h loc))
  | h, .mvec loc => (h, .vecV (mutableVecToVec h loc))
  | h, .mstruct ms => ((snapshotFields h ms).1, .structV (snapshotFields h ms).2)

/-- Snapshot over the fields in declaration order. -/
def snapshotFields {α : Type} [Inhabited α] : Heap α → MValueList α → Heap α × ValueList α
  | h, .nil => (h, .nil)
  | h, .cons m ms =>
    ((snapshotFields (snapshot h m).1 ms).1,
     .cons (snapshot h m).2 (snapshotFields (snapshot h m).1 ms).2)
end

mutual
/-- Semantics of the generated `update` (and of `MutableStruct::update` for
`MutableVec<T>`): per field, the emitted setter — `self.f.set(s.f)` for a
basic field, `self.f.update(s.f)` for a nested field,
`self.f.lock_mut().replace_cloned(s.f)` for a `Vec` field.  Shape-mismatched
pairs cannot arise from the Rust types (the snapshot type of a generated
struct is fixed); the catch-all leaves the heap unchanged. -/
def update {α : Type} : Heap α → MValue α → Value α → Heap α
  | h, .cell loc, .base v => mutableSet h loc v
  | h, .mvec loc, .vecV l => mutableVecReplaceCloned h loc l
  | h, .mstruct ms, .structV fs => updateFields h ms fs
  | h, _, _ => h

/-- Update over the fields in declaration order. -/
def updateFields {α : Type} : Heap α → MValueList α → ValueList α → Heap α
  | h, .cons m ms, .cons v vs => updateFields (update h m v) ms vs
  | h, _, _ => h
end

/-- Semantics of the generated `Clone` impl:
`self.snapshot().as_mutable_struct()`. -/
def clone_mutable {α : Type} [Inhabited α] (h : Heap α) (m : MValue α) : Heap α × MValue α :=
  as_mutable_struct (snapshot h m).1 (snapshot h m).2

mutual
/-- The mutable value and the snapshot value have the same field shape (this
is what the Rust types enforce: `update` takes exactly the snapshot type). -/
def matchesShape {α : Type} : MValue α → Value α → Bool
  | .cell _, .base _ => true
  | .mvec _, .vecV _ => true
  | .mstruct ms, .structV fs => matchesShapeList ms fs
  | _, _ => false

/-- Shape agreement (`matchesShape`) over the fields. -/
def matchesShapeList {α : Type} : MValueList α → ValueList α → Bool
  | .nil, .nil => true
  | .cons m ms, .cons v vs => matchesShape m v && matchesShapeList ms vs
  | _, _ => false
end

mutual
/-- The cell locations owned by a mutable value, in field order. -/
def locsOf {α : Type} : MValue α → List Nat
  | .cell loc => [loc]
  | .mvec loc => [loc]
  | .mstruct ms => locsOfList ms

/-- Owned locations (`locsOf`) over the fields. -/
def locsOfList {α : Type} : MValueList α → List Nat
  | .nil => []
  | .cons m ms => locsOf m ++ locsOfList ms
end

/-- Field access on a mutable struct's field list. -/
def MValueList.nth {α : Type} : MValueList α → Nat → Option (MValue α)
  | .nil, _ => none
  | .cons m _, 0 => some m
  | .cons _ ms, Nat.succ i => ms.nth i

/-- Field access on a snapshot's field list. -/
def ValueList.nth {α : Type} : ValueList α → Nat → Option (Value α)
  | .nil, _ => none
  | .cons v _, 0 => some v
  | .cons _ vs, Nat.succ i => vs.nth i

/-! ### Heap lemmas -/

theorem readCell_append {α : Type} [Inhabited α] (h t : Heap α) (loc : Nat)
    (hlt : loc < h.length) : readCell (h ++ t) loc = readCell h loc := by
  unfold readCell
  rw [List.getElem?_append_left hlt]

theorem readCell_set_ne {α : Type} [Inhabited α] (h : Heap α) (l loc : Nat) (c : CellVal α)
    (hne : l ≠ loc) : readCell (h.set l c) loc = readCell h loc := by
  unfold readCell
  rw [List.getElem?_set_ne hne]

theorem readCell_set_self {α : Type} [Inhabited α] (h : Heap α) (l : Nat) (c : CellVal α)
    (hlt : l < h.length) : readCell (h.set l c) l = c := by
  unfold readCell
  rw [List.getElem?_set_self hlt]
  rfl

mutual
/-- Snapshot never writes: the threaded heap comes back unchanged. -/
theorem snapshot_fst {α : Type} [Inhabited α] (h : Heap α) (m : MValue α) :
    (snapshot h m).1 = h := by
  match m with
  | .cell loc => rfl
  | .mvec loc => rfl
  | .mstruct ms => simpa [snapshot] using snapshotFields_fst h ms

/-- Field snapshot never writes. -/
theorem snapshotFields_fst {α : Type} [Inhabited α] (h : Heap α) (ms : MValueList α) :
    (snapshotFields h ms).1 = h := by
  match ms with
  | .nil => rfl
  | .cons m ms' =>
    have h1 := snapshot_fst h m
    have h2 := snapshotFields_fst (snapshot h m).1 ms'
    rw [h1] at h2
    simp [snapshotFields, h1, h2]
end

mutual
/-- The snapshot value only depends on the heap at the owned locations. -/
theorem snapshot_congr {α : Type} [Inhabited α] (h₁ h₂ : Heap α) (m : MValue α)
    (hr : ∀ loc ∈ locsOf m, readCell h₁ loc = readCell h₂ loc) :
    (snapshot h₁ m).2 = (snapshot h₂ m).2 := by
  match m with
  | .cell loc =>
    have := hr loc (by simp [locsOf])
    simp [snapshot, mutableGetCloned, this]
  | .mvec loc =>
    have := hr loc (by simp [locsOf])
    simp [snapshot, mutableVecToVec, this]
  | .mstruct ms =>
    have := snapshotFields_congr h₁ h₂ ms (by simpa [locsOf] using hr)
    simp [snapshot, this]

/-- Congruence (`snapshot_congr`) over the fields. -/
theorem snapshotFields_congr {α : Type} [Inhabited α] (h₁ h₂ : Heap α) (ms : MValueList α)
    (hr : ∀ loc ∈ locsOfList ms, readCell h₁ loc = readCell h₂ loc) :
    (snapshotFields h₁ ms).2 = (snapshotFields h₂ ms).2 := by
  match ms with
  | .nil => rfl
  | .cons m ms' =>
    have hm := snapshot_congr h₁ h₂ m
      (fun loc hl => hr loc (by simp [locsOfList, hl]))
    have hms := snapshotFields_congr (snapshot h₁ m).1 (snapshot h₂ m).1 ms'
      (by
        rw [snapshot_fst, snapshot_fst]
        exact fun loc hl => hr loc (by simp [locsOfList, hl]))
    simp [snapshotFields, hm, hms]
end

mutual
/-- Update preserves the heap's length (it only overwrites cells). -/
theorem update_length {α : Type} (h : Heap α) (m : MValue α) (s : Value α) :
    (update h m s).length = h.length := by
  match m, s with
  | .cell loc, .base v => simp [update, mutableSet]
  | .cell loc, .vecV l => rfl
  | .cell loc, .structV fs => rfl
  | .mvec loc, .base v => rfl
  | .mvec loc, .vecV l => simp [update, mutableVecReplaceCloned]
  | .mvec loc, .structV fs => rfl
  | .mstruct ms, .base v => rfl
  | .mstruct ms, .vecV l => rfl
  | .mstruct ms, .structV fs => simpa [update] using updateFields_length h ms fs

/-- Field update preserves the heap's length. -/
theorem updateFields_length {α : Type} (h : Heap α) (ms : MValueList α) (vs : ValueList α) :
    (updateFields h ms vs).length = h.length := by
  match ms, vs with
  | .nil, _ => rfl
  | .cons m ms', .nil => rfl
  | .cons m ms', .cons v vs' =>
    have h1 := update_length h m v
    have h2 := updateFields_length (update h m v) ms' vs'
    simp [updateFields, h2, h1]
end

mutual
/-- Update writes only at the owned locations. -/
theorem readCell_update_notin {α : Type} [Inhabited α] (h : Heap α) (m : MValue α)
    (s : Value α) (loc : Nat) (hout : loc ∉ locsOf m) :
    readCell (update h m s) loc = readCell h loc := by
  match m, s with
  | .cell l, .base v =>
    have hne : l ≠ loc := by simp [locsOf] at hout; exact fun he => hout he.symm
    simpa [update, mutableSet] using readCell_set_ne h l loc _ hne
  | .cell l, .vecV _ => rfl
  | .cell l, .structV _ => rfl
  | .mvec l, .base _ => rfl
  | .mvec l, .vecV lst =>
    have hne : l ≠ loc := by simp [locsOf] at hout; exact fun he => hout he.symm
    simpa [update, mutableVecReplaceCloned] using readCell_set_ne h l loc _ hne
  | .mvec l, .structV _ => rfl
  | .mstruct ms, .base _ => rfl
  | .mstruct ms, .vecV _ => rfl
  | .mstruct ms, .structV fs =>
    have : loc ∉ locsOfList ms := by simpa [locsOf] using hout
    simpa [update] using readCell_updateFields_notin h ms fs loc this

/-- Field update writes only at the owned locations. -/
theorem readCell_updateFields_notin {α : Type} [Inhabited α] (h : Heap α) (ms : MValueList α)
    (vs : ValueList α) (loc : Nat) (hout : loc ∉ locsOfList ms) :
    readCell (updateFields h ms vs) loc = readCell h loc := by
  match ms, vs with
  | .nil, _ => rfl
  | .cons m ms', .nil => rfl
  | .cons m ms', .cons v vs' =>
    have hm : loc ∉ locsOf m := by
      simp [locsOfList] at hout; exact hout.1
    have hms : loc ∉ locsOfList ms' := by
      simp [locsOfList] at hout; exact hout.2
    have h1 := readCell_update_notin h m v loc hm
    have h2 := readCell_updateFields_notin (update h m v) ms' vs' loc hms
    simp [updateFields, h2, h1]
end

theorem readCell_concat_length {α : Type} [Inhabited α] (h : Heap α) (c : CellVal α) :
    readCell (h ++ [c]) h.length = c := by
  unfold readCell
  rw [List.getElem?_concat_length]
  rfl

mutual
/-- Allocation only appends to the heap. -/
theorem as_mutable_struct_ext {α : Type} (h : Heap α) (v : Value α) :
    ∃ t, (as_mutable_struct h v).1 = h ++ t := by
  match v with
  | .base b => exact ⟨[CellVal.scalar b], rfl⟩
  | .vecV l => exact ⟨[CellVal.vecCell l], rfl⟩
  | .structV fs => simpa [as_mutable_struct] using as_mutable_fields_ext h fs

/-- Allocation over the fields only appends to the heap. -/
theorem as_mutable_fields_ext {α : Type} (h : Heap α) (vs : ValueList α) :
    ∃ t, (as_mutable_fields h vs).1 = h ++ t := by
  match vs with
  | .nil => exact ⟨[], by simp [as_mutable_fields]⟩
  | .cons v vs' =>
    obtain ⟨t1, ht1⟩ := as_mutable_struct_ext h v
    obtain ⟨t2, ht2⟩ := as_mutable_fields_ext (as_mutable_struct h v).1 vs'
    refine ⟨t1 ++ t2, ?_⟩
    simp only [as_mutable_fields]
    rw [ht2, ht1, List.append_assoc]
end

mutual
/-- Freshly allocated locations lie between the old and the new heap
length. -/
theorem as_mutable_struct_locs {α : Type} (h : Heap α) (v : Value α) :
    ∀ loc ∈ locsOf (as_mutable_struct h v).2,
      h.length ≤ loc ∧ loc < (as_mutable_struct h v).1.length := by
  match v with
  | .base b =>
    intro loc hl
    simp [as_mutable_struct, mutableNew, locsOf] at hl
    subst hl
    simp [as_mutable_struct, mutableNew]
  | .vecV l =>
    intro loc hl
    simp [as_mutable_struct, mutableVecNewWithValues, locsOf] at hl
    subst hl
    simp [as_mutable_struct, mutableVecNewWithValues]
  | .structV fs =>
    intro loc hl
    exact as_mutable_fields_locs h fs loc (by simpa [as_mutable_struct, locsOf] using hl)

/-- Freshly allocated locations over the fields lie between the old and the
new heap length. -/
theorem as_mutable_fields_locs {α : Type} (h : Heap α) (vs : ValueList α) :
    ∀ loc ∈ locsOfList (as_mutable_fields h vs).2,
      h.length ≤ loc ∧ loc < (as_mutable_fields h vs).1.length := by
  match vs with
  | .nil =>
    intro loc hl
    simp [as_mutable_fields, locsOfList] at hl
  | .cons v vs' =>
    intro loc hl
    simp only [as_mutable_fields, locsOfList, List.mem_append] at hl
    rcases hl with hl | hl
    · obtain ⟨hle, hlt⟩ := as_mutable_struct_locs h v loc hl
      refine ⟨hle, ?_⟩
      have hlen : (as_mutable_struct h v).1.length
          ≤ (as_mutable_fields (as_mutable_struct h v).1 vs').1.length := by
        obtain ⟨t, ht⟩ := as_mutable_fields_ext (as_mutable_struct h v).1 vs'
        simp [ht]
      exact lt_of_lt_of_le hlt hlen
    · obtain ⟨hle, hlt⟩ := as_mutable_fields_locs (as_mutable_struct h v).1 vs' loc hl
      refine ⟨?_, hlt⟩
      have hlen : h.length ≤ (as_mutable_struct h v).1.length := by
        obtain ⟨t, ht⟩ := as_mutable_struct_ext h v
        simp [ht]
      exact le_trans hlen hle
end

mutual
/-- Freshly allocated locations are pairwise distinct. -/
theorem as_mutable_struct_nodup {α : Type} (h : Heap α) (v : Value α) :
    (locsOf (as_mutable_struct h v).2).Nodup := by
  match v with
  | .base b => simp [as_mutable_struct, mutableNew, locsOf]
  | .vecV l => simp [as_mutable_struct, mutableVecNewWithValues, locsOf]
  | .structV fs => simpa [as_mutable_struct, locsOf] using as_mutable_fields_nodup h fs

/-- Freshly allocated locations over the fields are pairwise distinct. -/
theorem as_mutable_fields_nodup {α : Type} (h : Heap α) (vs : ValueList α) :
    (locsOfList (as_mutable_fields h vs).2).Nodup := by
  match vs with
  | .nil => simp [as_mutable_fields, locsOfList]
  | .cons v vs' =>
    have hn1 := as_mutable_struct_nodup h v
    have hn2 := as_mutable_fields_nodup (as_mutable_struct h v).1 vs'
    simp only [as_mutable_fields, locsOfList]
    rw [List.nodup_append]
    refine ⟨hn1, hn2, ?_⟩
    intro x hx1 hx2
    have r1 := (as_mutable_struct_locs h v x hx1).2
    have r2 := (as_mutable_fields_locs (as_mutable_struct h v).1 vs' x hx2).1
    omega
end

mutual
/-- Round trip, strengthened for sequential allocation: a snapshot taken in
any extension of the allocation's final heap returns the original value. -/
theorem snapshot_as_mutable_ext {α : Type} [Inhabited α] (h : Heap α) (v : Value α)
    (t : Heap α) :
    (snapshot ((as_mutable_struct h v).1 ++ t) (as_mutable_struct h v).2).2 = v := by
  match v with
  | .base b =>
    have h1 : readCell (h ++ CellVal.scalar b :: t) h.length = CellVal.scalar b := by
      rw [show h ++ CellVal.scalar b :: t = (h ++ [CellVal.scalar b]) ++ t by simp]
      rw [readCell_append _ t _ (by simp), readCell_concat_length]
    simp [as_mutable_struct, mutableNew, snapshot, mutableGetCloned, h1]
  | .vecV l =>
    have h1 : readCell (h ++ CellVal.vecCell l :: t) h.length = CellVal.vecCell l := by
      rw [show h ++ CellVal.vecCell l :: t = (h ++ [CellVal.vecCell l]) ++ t by simp]
      rw [readCell_append _ t _ (by simp), readCell_concat_length]
    simp [as_mutable_struct, mutableVecNewWithValues, snapshot, mutableVecToVec, h1]
  | .structV fs =>
    have := snapshotFields_as_mutable_ext h fs t
    simp [as_mutable_struct, snapshot, this]

/-- Round trip over the fields, strengthened for sequential allocation. -/
theorem snapshotFields_as_mutable_ext {α : Type} [Inhabited α] (h : Heap α)
    (vs : ValueList α) (t : Heap α) :
    (snapshotFields ((as_mutable_fields h vs).1 ++ t) (as_mutable_fields h vs).2).2 = vs := by
  match vs with
  | .nil => simp [as_mutable_fields, snapshotFields]
  | .cons v vs' =>
    obtain ⟨t2, ht2⟩ := as_mutable_fields_ext (as_mutable_struct h v).1 vs'
    have hm := snapshot_as_mutable_ext h v (t2 ++ t)
    have hms := snapshotFields_as_mutable_ext (as_mutable_struct h v).1 vs' t
    simp only [as_mutable_fields, snapshotFields]
    rw [snapshot_fst]
    rw [ht2] at hms ⊢
    rw [List.append_assoc] at hms ⊢
    rw [hm, hms]
end

/-- Round trip: a snapshot taken right after `as_mutable_struct` returns the
original value. -/
theorem snapshot_as_mutable {α : Type} [Inhabited α] (h : Heap α) (v : Value α) :
    (snapshot (as_mutable_struct h v).1 (as_mutable_struct h v).2).2 = v := by
  have := snapshot_as_mutable_ext h v []
  simpa using this

mutual
/-- After `update h m s`, the snapshot of `m` is `s` (for any `m` whose
shape matches `s` and whose cells are live and distinct, the invariants the
Rust types and allocator give every reachable generated struct). -/
theorem snapshot_update {α : Type} [Inhabited α] (h : Heap α) (m : MValue α) (s : Value α)
    (hsh : matchesShape m s = true) (hnd : (locsOf m).Nodup)
    (hlt : ∀ loc ∈ locsOf m, loc < h.length) :
    (snapshot (update h m s) m).2 = s := by
  match m, s with
  | .cell loc, .base v =>
    have hl : loc < h.length := hlt loc (by simp [locsOf])
    have h1 : readCell (mutableSet h loc v) loc = CellVal.scalar v :=
      readCell_set_self h loc _ hl
    simp [update, snapshot, mutableGetCloned, h1]
  | .cell loc, .vecV _ => simp [matchesShape] at hsh
  | .cell loc, .structV _ => simp [matchesShape] at hsh
  | .mvec loc, .base _ => simp [matchesShape] at hsh
  | .mvec loc, .vecV l =>
    have hl : loc < h.length := hlt loc (by simp [locsOf])
    have h1 : readCell (mutableVecReplaceCloned h loc l) loc = CellVal.vecCell l :=
      readCell_set_self h loc _ hl
    simp [update, snapshot, mutableVecToVec, h1]
  | .mvec loc, .structV _ => simp [matchesShape] at hsh
  | .mstruct ms, .base _ => simp [matchesShape] at hsh
  | .mstruct ms, .vecV _ => simp [matchesShape] at hsh
  | .mstruct ms, .structV fs =>
    have := snapshotFields_update h ms fs (by simpa [matchesShape] using hsh)
      (by simpa [locsOf] using hnd) (by simpa [locsOf] using hlt)
    simp [update, snapshot, this]

/-- Update-then-snapshot (`snapshot_update`) over the fields. -/
theorem snapshotFields_update {α : Type} [Inhabited α] (h : Heap α) (ms : MValueList α)
    (vs : ValueList α)
    (hsh : matchesShapeList ms vs = true) (hnd : (locsOfList ms).Nodup)
    (hlt : ∀ loc ∈ locsOfList ms, loc < h.length) :
    (snapshotFields (updateFields h ms vs) ms).2 = vs := by
  match ms, vs with
  | .nil, .nil => rfl
  | .nil, .cons v vs' => simp [matchesShapeList] at hsh
  | .cons m ms', .nil => simp [matchesShapeList] at hsh
  | .cons m ms', .cons v vs' =>
    obtain ⟨hsh1, hsh2⟩ : matchesShape m v = true ∧ matchesShapeList ms' vs' = true := by
      simpa [matchesShapeList, Bool.and_eq_true] using hsh
    have hnd' := hnd
    simp only [locsOfList] at hnd'
    rw [List.nodup_append] at hnd'
    obtain ⟨hndm, hndms, hdisj⟩ := hnd'
    have hltm : ∀ loc ∈ locsOf m, loc < h.length :=
      fun loc hl => hlt loc (by simp [locsOfList, hl])
    have hltms : ∀ loc ∈ locsOfList ms', loc < h.length :=
      fun loc hl => hlt loc (by simp [locsOfList, hl])
    have hc1 : (snapshot (updateFields (update h m v) ms' vs') m).2
        = (snapshot (update h m v) m).2 := by
      apply snapshot_congr
      intro loc hl
      exact readCell_updateFields_notin _ ms' vs' loc (fun hmem => hdisj hl hmem)
    have hc1' : (snapshot (update h m v) m).2 = v := snapshot_update h m v hsh1 hndm hltm
    have hc2 : (snapshotFields (updateFields (update h m v) ms' vs') ms').2 = vs' := by
      apply snapshotFields_update (update h m v) ms' vs' hsh2 hndms
      intro loc hl
      rw [update_length]
      exact hltms loc hl
    simp only [updateFields, snapshotFields]
    rw [snapshot_fst, hc1, hc1', hc2]
end

/-- The `i`-th snapshotted field is the snapshot of the `i`-th mutable
field. -/
theorem snapshotFields_nth {α : Type} [Inhabited α] (h : Heap α) (ms : MValueList α)
    (i : Nat) :
    ValueList.nth (snapshotFields h ms).2 i
      = (MValueList.nth ms i).map (fun m => (snapshot h m).2) := by
  match ms, i with
  | .nil, _ => rfl
  | .cons m ms', 0 => simp [snapshotFields, MValueList.nth, ValueList.nth]
  | .cons m ms', Nat.succ j =>
    have hih := snapshotFields_nth (snapshot h m).1 ms' j
    rw [snapshot_fst] at hih
    simp [snapshotFields, MValueList.nth, ValueList.nth, snapshot_fst, hih]

/-- Locations of the `i`-th field are locations of the struct. -/
theorem nth_mem_locsOfList {α : Type} (ms : MValueList α) (i : Nat) (m : MValue α)
    (h : MValueList.nth ms i = some m) : ∀ loc ∈ locsOf m, loc ∈ locsOfList ms := by
  match ms, i with
  | .nil, _ => cases h
  | .cons m' ms', 0 =>
    injection h with h'
    subst h'
    intro loc hl
    simp [locsOfList, hl]
  | .cons m' ms', Nat.succ j =>
    intro loc hl
    have := nth_mem_locsOfList ms' j m h loc hl
    simp [locsOfList, this]

/-- In a struct with pairwise distinct locations, distinct fields own
disjoint locations. -/
theorem nth_disjoint_of_nodup {α : Type} (ms : MValueList α)
    (hnd : (locsOfList ms).Nodup) (i j : Nat) (mi mj : MValue α) (hne : i ≠ j)
    (hi : MValueList.nth ms i = some mi) (hj : MValueList.nth ms j = some mj) :
    ∀ loc ∈ locsOf mi, loc ∉ locsOf mj := by
  match ms, i, j with
  | .nil, _, _ => cases hi
  | .cons m ms', 0, 0 => exact absurd rfl hne
  | .cons m ms', 0, Nat.succ j' =>
    injection hi with h'
    subst h'
    intro loc hl hmem
    simp only [locsOfList] at hnd
    rw [List.nodup_append] at hnd
    exact hnd.2.2 hl (nth_mem_locsOfList ms' j' mj hj loc hmem)
  | .cons m ms', Nat.succ i', 0 =>
    injection hj with h'
    subst h'
    intro loc hl hmem
    simp only [locsOfList] at hnd
    rw [List.nodup_append] at hnd
    exact hnd.2.2 hmem (nth_mem_locsOfList ms' i' mi hi loc hl)
  | .cons m ms', Nat.succ i', Nat.succ j' =>
    have hnd' := hnd
    simp only [locsOfList] at hnd'
    rw [List.nodup_append] at hnd'
    exact nth_disjoint_of_nodup ms' hnd'.2.1 i' j' mi mj (by omega) hi hj

/-- The field list of a struct snapshot value. -/
def Value.fieldsOf {α : Type} : Value α → ValueList α
  | .structV fs => fs
  | _ => .nil

/-! ### Claim theorems on the runtime semantics -/

/-- C1: converting a plain value (a derived struct's snapshot type, or a
`Vec<T>`) to its mutable form and immediately taking a snapshot returns the
original value. -/
theorem C1_roundtrip_snapshot {α : Type} [Inhabited α] (h : Heap α) (x : Value α) :
    (snapshot (as_mutable_struct h x).1 (as_mutable_struct h x).2).2 = x :=
  snapshot_as_mutable h x

/-- C2: after `m.update(s)`, `m.snapshot()` equals `s`, for every generated
mutable struct or `MutableVec` whose shape matches its snapshot type and
whose cells are live and pairwise distinct (the invariants every reachable
generated struct satisfies). -/
theorem C2_update_postcondition {α : Type} [Inhabited α] (h : Heap α) (m : MValue α)
    (s : Value α) (hsh : matchesShape m s = true) (hnd : (locsOf m).Nodup)
    (hlt : ∀ loc ∈ locsOf m, loc < h.length) :
    (snapshot (update h m s) m).2 = s :=
  snapshot_update h m s hsh hnd hlt

/-- Witness for C2 at a concrete two-field struct (one scalar cell, one
`MutableVec`). -/
theorem C2_update_postcondition_witness :
    (snapshot
        (update ([CellVal.scalar 5, CellVal.vecCell [1, 2]] : Heap Nat)
          (MValue.mstruct (.cons (.cell 0) (.cons (.mvec 1) .nil)))
          (Value.structV (.cons (.base 7) (.cons (.vecV [3]) .nil))))
        (MValue.mstruct (.cons (.cell 0) (.cons (.mvec 1) .nil)))).2
      = Value.structV (.cons (.base 7) (.cons (.vecV [3]) .nil)) :=
  C2_update_postcondition _ _ _ (by decide) (by decide) (by decide)

/-- C6: `snapshot` is read-only — it returns the heap unchanged, and two
consecutive snapshots return equal values. -/
theorem C6_snapshot_readonly {α : Type} [Inhabited α] (h : Heap α) (m : MValue α) :
    (snapshot h m).1 = h ∧
    (snapshot (snapshot h m).1 m).2 = (snapshot h m).2 := by
  refine ⟨snapshot_fst h m, ?_⟩
  rw [snapshot_fst]

/-- C7: fields are individually settable cells — setting field `i`'s cell to
`v` makes field `i` of the next snapshot equal `v` and leaves every other
field of the snapshot unchanged. -/
theorem C7_per_field_independence {α : Type} [Inhabited α] (h : Heap α)
    (ms : MValueList α) (i loc : Nat) (v : α)
    (hnd : (locsOf (MValue.mstruct ms)).Nodup)
    (hlt : ∀ l ∈ locsOf (MValue.mstruct ms), l < h.length)
    (hf : MValueList.nth ms i = some (MValue.cell loc)) :
    ValueList.nth ((snapshot (mutableSet h loc v) (MValue.mstruct ms)).2.fieldsOf) i
      = some (Value.base v) ∧
    ∀ j, j ≠ i →
      ValueList.nth ((snapshot (mutableSet h loc v) (MValue.mstruct ms)).2.fieldsOf) j
        = ValueList.nth ((snapshot h (MValue.mstruct ms)).2.fieldsOf) j := by
  have hfl : (snapshot (mutableSet h loc v) (MValue.mstruct ms)).2.fieldsOf
      = (snapshotFields (mutableSet h loc v) ms).2 := rfl
  have hfl2 : (snapshot h (MValue.mstruct ms)).2.fieldsOf = (snapshotFields h ms).2 := rfl
  have hlocmem : loc ∈ locsOfList ms :=
    nth_mem_locsOfList ms i _ hf loc (by simp [locsOf])
  have hloclt : loc < h.length := hlt loc (by simpa [locsOf] using hlocmem)
  constructor
  · rw [hfl, snapshotFields_nth, hf]
    have h1 : readCell (mutableSet h loc v) loc = CellVal.scalar v :=
      readCell_set_self h loc _ hloclt
    simp [snapshot, mutableGetCloned, h1]
  · intro j hj
    rw [hfl, hfl2, snapshotFields_nth, snapshotFields_nth]
    rcases hjth : MValueList.nth ms j with _ | mj
    · rfl
    · have hdisj := nth_disjoint_of_nodup ms (by simpa [locsOf] using hnd) j i mj
        (MValue.cell loc) hj hjth hf
      have hsame : (snapshot (mutableSet h loc v) mj).2 = (snapshot h mj).2 := by
        apply snapshot_congr
        intro l hl
        have hne : loc ≠ l := by
          intro he
          exact hdisj l hl (by simp [locsOf, he])
        simpa [mutableSet] using readCell_set_ne h loc l _ hne
      simp [hsame]

/-- Witness for C7 at a concrete two-cell struct: setting the first cell. -/
theorem C7_per_field_independence_witness :
    ValueList.nth ((snapshot (mutableSet ([CellVal.scalar 3, CellVal.scalar 4] : Heap Nat) 0 9)
        (MValue.mstruct (.cons (.cell 0) (.cons (.cell 1) .nil)))).2.fieldsOf) 0
      = some (Value.base 9) ∧
    ValueList.nth ((snapshot (mutableSet ([CellVal.scalar 3, CellVal.scalar 4] : Heap Nat) 0 9)
        (MValue.mstruct (.cons (.cell 0) (.cons (.cell 1) .nil)))).2.fieldsOf) 1
      = ValueList.nth ((snapshot ([CellVal.scalar 3, CellVal.scalar 4] : Heap Nat)
          (MValue.mstruct (.cons (.cell 0) (.cons (.cell 1) .nil)))).2.fieldsOf) 1 :=
  ⟨(C7_per_field_independence ([CellVal.scalar 3, CellVal.scalar 4] : Heap Nat)
      (.cons (.cell 0) (.cons (.cell 1) .nil)) 0 0 9 (by decide) (by decide) rfl).1,
   (C7_per_field_independence ([CellVal.scalar 3, CellVal.scalar 4] : Heap Nat)
      (.cons (.cell 0) (.cons (.cell 1) .nil)) 0 0 9 (by decide) (by decide) rfl).2 1
     (by decide)⟩

/-- C9: the generated `Clone` is snapshot-then-reconstruct; the clone's
snapshot equals the original's, and the clone shares no cells with the
original — writing any cell of the clone leaves the original's snapshot
unchanged. -/
theorem C9_clone_deep {α : Type} [Inhabited α] (h : Heap α) (m : MValue α)
    (hlt : ∀ loc ∈ locsOf m, loc < h.length) :
    clone_mutable h m = as_mutable_struct (snapshot h m).1 (snapshot h m).2 ∧
    (snapshot (clone_mutable h m).1 (clone_mutable h m).2).2 = (snapshot h m).2 ∧
    (∀ loc ∈ locsOf (clone_mutable h m).2, loc ∉ locsOf m) ∧
    (∀ loc ∈ locsOf (clone_mutable h m).2, ∀ c,
      (snapshot ((clone_mutable h m).1.set loc c) m).2 = (snapshot h m).2) := by
  have hfst : (snapshot h m).1 = h := snapshot_fst h m
  have hclone : clone_mutable h m = as_mutable_struct h (snapshot h m).2 := by
    unfold clone_mutable
    rw [hfst]
  refine ⟨rfl, ?_, ?_, ?_⟩
  · rw [hclone]
    exact snapshot_as_mutable h (snapshot h m).2
  · intro loc hmem
    rw [hclone] at hmem
    have hge := (as_mutable_struct_locs h (snapshot h m).2 loc hmem).1
    intro hmem2
    have := hlt loc hmem2
    omega
  · intro loc hmem c
    rw [hclone] at hmem ⊢
    obtain ⟨t, ht⟩ := as_mutable_struct_ext h (snapshot h m).2
    have hge := (as_mutable_struct_locs h (snapshot h m).2 loc hmem).1
    apply snapshot_congr
    intro l hl
    have hllt : l < h.length := hlt l hl
    have hne : loc ≠ l := by omega
    rw [ht]
    calc readCell ((h ++ t).set loc c) l
        = readCell (h ++ t) l := readCell_set_ne _ loc l _ hne
      _ = readCell h l := readCell_append h t l hllt

/-- Witness for C9 at a concrete one-cell struct. -/
theorem C9_clone_deep_witness :
    (clone_mutable ([CellVal.scalar 1] : Heap Nat) (MValue.cell 0)
        = as_mutable_struct (snapshot ([CellVal.scalar 1] : Heap Nat) (MValue.cell 0)).1
            (snapshot ([CellVal.scalar 1] : Heap Nat) (MValue.cell 0)).2) ∧
    (snapshot (clone_mutable ([CellVal.scalar 1] : Heap Nat) (MValue.cell 0)).1
        (clone_mutable ([CellVal.scalar 1] : Heap Nat) (MValue.cell 0)).2).2
      = (snapshot ([CellVal.scalar 1] : Heap Nat) (MValue.cell 0)).2 ∧
    (1 ∉ locsOf (MValue.cell 0 : MValue Nat)) ∧
    (snapshot ((clone_mutable ([CellVal.scalar 1] : Heap Nat) (MValue.cell 0)).1.set 1
          (CellVal.scalar 99))
        (MValue.cell 0)).2
      = (snapshot ([CellVal.scalar 1] : Heap Nat) (MValue.cell 0)).2 :=
  ⟨(C9_clone_deep ([CellVal.scalar 1] : Heap Nat) (MValue.cell 0) (by decide)).1,
   (C9_clone_deep ([CellVal.scalar 1] : Heap Nat) (MValue.cell 0) (by decide)).2.1,
   (C9_clone_deep ([CellVal.scalar 1] : Heap Nat) (MValue.cell 0) (by decide)).2.2.1 1
     (by decide),
   (C9_clone_deep ([CellVal.scalar 1] : Heap Nat) (MValue.cell 0) (by decide)).2.2.2 1
     (by decide) (CellVal.scalar 99)⟩

end FSS
